import Mathlib

set_option maxRecDepth 8192

/-!
Verification of nicklansley/ollama_email_summariser
(src/perplexity_email_reader.py) against its natural-language
specification. The Python pipeline is shallowly embedded: pure parts
become Lean functions, library effects (IMAP fetch, the Perplexity HTTP
call, html2text conversion, the wall clock) become explicit inputs, and
Python exceptions become Except/Option results.
-/

namespace EmailReader

/-- The opening brace character, written by code point. -/
def lbrace : Char := Char.ofNat 123

/-- The closing brace character, written by code point. -/
def rbrace : Char := Char.ofNat 125

/-- JSON values as produced by Python json.loads. Objects keep their
fields as an association list in source order; numeric literals are
modelled as integers (fractional and exponent literals are rejected by
the embedded parser; no input considered in this development uses them). -/
inductive Json where
  | null : Json
  | bool (b : Bool) : Json
  | num (n : Int) : Json
  | str (s : String) : Json
  | arr (elems : List Json) : Json
  | obj (fields : List (String × Json)) : Json

/-- Python dict lookup on a parsed JSON object: with duplicate keys the
later binding wins, exactly as json.loads builds a dict. Returns none
(a KeyError in Python) when the key is absent or the value is not an
object. -/
def jget (j : Json) (k : String) : Option Json :=
  match j with
  | Json.obj fields => (fields.reverse.lookup k)
  | _ => none

/-- JSON whitespace accepted between tokens by Python json.loads:
space, tab, newline, carriage return. -/
def isJsonWs (c : Char) : Bool :=
  c = ' ' || c = '\t' || c = '\n' || c = '\r'

/-- Drop leading JSON whitespace. -/
def skipWs (s : List Char) : List Char :=
  s.dropWhile isJsonWs

/-- Decode the body of a JSON string literal after the opening quote,
returning the decoded characters and the input after the closing quote.
The common backslash escapes are mapped as json.loads maps them;
unicode escapes are not modelled (no input considered here uses them);
unescaped control characters are rejected as in strict-mode json.loads. -/
def parseStringBody : List Char → Option (List Char × List Char)
  | [] => none
  | c :: rest =>
    if c = '\"' then some ([], rest)
    else if c = '\\' then
      match rest with
      | [] => none
      | e :: rest2 =>
        let dec : Option Char :=
          if e = '\"' then some '\"'
          else if e = '\\' then some '\\'
          else if e = '/' then some '/'
          else if e = 'b' then some (Char.ofNat 8)
          else if e = 'f' then some (Char.ofNat 12)
          else if e = 'n' then some '\n'
          else if e = 'r' then some '\r'
          else if e = 't' then some '\t'
          else none
        match dec with
        | none => none
        | some d =>
          match parseStringBody rest2 with
          | some (cs, rem) => some (d :: cs, rem)
          | none => none
    else if c.toNat < 32 then none
    else
      match parseStringBody rest with
      | some (cs, rem) => some (c :: cs, rem)
      | none => none

/-- Parse a JSON integer literal: optional minus sign, then either a
single 0 or a nonzero digit followed by digits. A following fraction
or exponent marker makes the parse fail (numeric model limitation). -/
def parseIntLit (s : List Char) : Option (Int × List Char) :=
  let (neg, s1) :=
    match s with
    | c :: rest => if c = '-' then (true, rest) else (false, s)
    | [] => (false, s)
  match s1 with
  | [] => none
  | d :: rest =>
    if !d.isDigit then none
    else
      let (digits, rem) :=
        if d = '0' then ([d], rest)
        else (d :: rest.takeWhile Char.isDigit, rest.dropWhile Char.isDigit)
      match rem with
      | c :: _ =>
        if c.isDigit || c = '.' || c = 'e' || c = 'E' then none
        else
          let v : Int := Int.ofNat (digits.foldl (fun a c2 => a * 10 + (c2.toNat - 48)) 0)
          some (if neg then -v else v, rem)
      | [] =>
        let v : Int := Int.ofNat (digits.foldl (fun a c2 => a * 10 + (c2.toNat - 48)) 0)
        some (if neg then -v else v, [])

mutual

/-- Recursive-descent JSON value parser (fuel-indexed for termination),
mirroring json.loads on the value grammar restricted to the constructs
noted on Json. Leading whitespace is skipped. -/
def parseValue : Nat → List Char → Option (Json × List Char)
  | 0, _ => none
  | fuel + 1, s =>
    match skipWs s with
    | [] => none
    | c :: rest =>
      if c = lbrace then parseObjFields fuel rest []
      else if c = '[' then parseArrElems fuel rest []
      else if c = '\"' then
        match parseStringBody rest with
        | some (cs, rem) => some (Json.str (String.mk cs), rem)
        | none => none
      else if c = 't' then
        match rest with
        | 'r' :: 'u' :: 'e' :: rem => some (Json.bool true, rem)
        | _ => none
      else if c = 'f' then
        match rest with
        | 'a' :: 'l' :: 's' :: 'e' :: rem => some (Json.bool false, rem)
        | _ => none
      else if c = 'n' then
        match rest with
        | 'u' :: 'l' :: 'l' :: rem => some (Json.null, rem)
        | _ => none
      else if c = '-' || c.isDigit then
        match parseIntLit (c :: rest) with
        | some (n, rem) => some (Json.num n, rem)
        | none => none
      else none

/-- Parse the members of a JSON object after the opening brace, with the
fields accumulated so far (in source order). -/
def parseObjFields : Nat → List Char → List (String × Json) → Option (Json × List Char)
  | 0, _, _ => none
  | fuel + 1, s, acc =>
    match skipWs s with
    | [] => none
    | c :: rest =>
      if c = rbrace then
        if acc.isEmpty then some (Json.obj [], rest) else none
      else if c = '\"' then
        match parseStringBody rest with
        | none => none
        | some (kcs, afterKey) =>
          match skipWs afterKey with
          | ':' :: afterColon =>
            match parseValue fuel afterColon with
            | none => none
            | some (v, afterVal) =>
              let acc2 := acc ++ [(String.mk kcs, v)]
              match skipWs afterVal with
              | ',' :: afterComma => parseObjFields fuel afterComma acc2
              | c2 :: afterClose =>
                if c2 = rbrace then some (Json.obj acc2, afterClose) else none
              | [] => none
          | _ => none
      else none

/-- Parse the elements of a JSON array after the opening bracket, with
the elements accumulated so far. -/
def parseArrElems : Nat → List Char → List Json → Option (Json × List Char)
  | 0, _, _ => none
  | fuel + 1, s, acc =>
    match skipWs s with
    | [] => none
    | c :: rest =>
      if c = ']' then
        if acc.isEmpty then some (Json.arr [], rest) else none
      else
        match parseValue fuel (c :: rest) with
        | none => none
        | some (v, afterVal) =>
          let acc2 := acc ++ [v]
          match skipWs afterVal with
          | ',' :: afterComma => parseArrElems fuel afterComma acc2
          | ']' :: afterClose => some (Json.arr acc2, afterClose)
          | _ => none

end

/-- json.loads on a whole string: parse one value and require that only
whitespace follows it (otherwise Python raises the Extra-data error). -/
def jsonLoads (s : String) : Option Json :=
  match parseValue (2 * s.data.length + 2) s.data with
  | some (j, rem) => if (skipWs rem).isEmpty then some j else none
  | none => none

/-- The span matched by re.search(r'\x7b.*\x7d', text, re.DOTALL): the
earliest-starting greedy match, which is the substring from the first
opening brace to the last closing brace whenever the last closing brace
lies strictly after the first opening brace, and no match otherwise. -/
def jsonSpan (s : String) : Option String :=
  let cs := s.data
  match cs.indexOf? lbrace, cs.reverse.indexOf? rbrace with
  | some i, some rj =>
    let j := cs.length - 1 - rj
    if i < j then some (String.mk ((cs.drop i).take (j - i + 1))) else none
  | _, _ => none

/-- The fixed 22-label category set (self.categories in the source). -/
def categoriesList : List String :=
  ["BUSINESS", "CHARITY", "EDUCATION", "ENTERTAINMENT", "ENVIRONMENT",
   "FINANCE", "FOOD", "GOVERNMENT", "HEALTH", "LGBTQ+", "LEGAL",
   "NEWS", "PERSONAL", "PROMOTIONAL", "RELIGION", "SCIENCE",
   "SHOPPING", "SOCIAL", "SPORT", "TECHNOLOGY", "TRAVEL", "WORK"]

/-- Python s[:n] on a string: the first n characters. -/
def strTake (s : String) (n : Nat) : String :=
  String.mk (s.data.take n)

/-- Outcome of the chat-completions request inside
categorize_and_summarize_email: either the reply text, or an exception
carrying its message (network/service error, caught by the outer
except-Exception branch). -/
inductive ApiOutcome where
  | ok (reply : String) : ApiOutcome
  | err (msg : String) : ApiOutcome

/-- The fixed fallback classification returned when no JSON object is
found in the reply or json.loads raises. -/
def fallbackResult : Json :=
  Json.obj [("categories", Json.arr [Json.str "PERSONAL"]),
            ("summary", Json.str "Email content could not be properly analyzed"),
            ("importance", Json.num 5)]

/-- The fallback classification returned by the outer except-Exception
branch when the request itself fails: same shape, with the truncated
error text as the summary. -/
def errorResult (msg : String) : Json :=
  Json.obj [("categories", Json.arr [Json.str "PERSONAL"]),
            ("summary", Json.str ("Error analyzing email: " ++ strTake msg 100)),
            ("importance", Json.num 5)]

/-- categorize_and_summarize_email, parameterised by the service
outcome (the prompt construction only feeds the request and is absorbed
into that outcome). On a reply: extract the brace span and json.loads
it, returning the parsed value verbatim on success and fallbackResult
otherwise. On a request failure: errorResult. Never raises. -/
def categorize_and_summarize_email (outcome : ApiOutcome) : Json :=
  match outcome with
  | ApiOutcome.err e => errorResult e
  | ApiOutcome.ok reply =>
    match jsonSpan reply with
    | none => fallbackResult
    | some span =>
      match jsonLoads span with
      | some result => result
      | none => fallbackResult

/-- The parsed JSON object embedded in a service outcome, when there is
one: some exactly when the brace span exists and json.loads accepts it. -/
def parsedReply (outcome : ApiOutcome) : Option Json :=
  match outcome with
  | ApiOutcome.err _ => none
  | ApiOutcome.ok reply =>
    match jsonSpan reply with
    | none => none
    | some span => jsonLoads span

/-- The spec invariant on one analysis result: importance is an integer
in [1,10], and categories is a list of 1 to 3 strings drawn from the
fixed 22-label set. (The summary field is unconstrained.) -/
def validAnalysis (j : Json) : Bool :=
  (match jget j "importance" with
   | some (Json.num n) => 1 ≤ n && n ≤ 10
   | _ => false) &&
  (match jget j "categories" with
   | some (Json.arr cs) =>
     1 ≤ cs.length && cs.length ≤ 3 &&
     cs.all (fun c =>
       match c with
       | Json.str s => categoriesList.contains s
       | _ => false)
   | _ => false)

/-- One normalized message as built by extract_email_data: the header
fields, the accumulated plain-text body, and the owner flag. -/
structure EmailData where
  subject : String
  fromHdr : String
  toHdr : String
  date : String
  body : String
  is_from_me : Bool
deriving DecidableEq

/-- The body of the loop in process_all_emails for one email: the
analysis dict is read at the keys categories, summary and importance
with Python subscript lookups, which raise KeyError (modelled as
Except.error) when a key is absent. -/
structure ProcessedEmail where
  email : EmailData
  categories : Json
  summary : Json
  importance : Json

/-- One iteration of process_all_emails: run the analysis (which never
raises) and build the augmented record; a missing key raises. -/
def processOne (e : EmailData) (outcome : ApiOutcome) : Except Unit ProcessedEmail :=
  let analysis := categorize_and_summarize_email outcome
  match jget analysis "categories" with
  | none => Except.error ()
  | some cs =>
    match jget analysis "summary" with
    | none => Except.error ()
    | some su =>
      match jget analysis "importance" with
      | none => Except.error ()
      | some im => Except.ok ⟨e, cs, su, im⟩

/-- process_all_emails: iterate the batch in order, augmenting every
email with its analysis; an uncaught exception in one iteration aborts
the whole loop (there is no try/except around the loop body). Each
email pairs with the service outcome its request produced. -/
def process_all_emails (batch : List (EmailData × ApiOutcome)) : Except Unit (List ProcessedEmail) :=
  match batch with
  | [] => Except.ok []
  | (e, o) :: rest =>
    match processOne e o with
    | Except.error u => Except.error u
    | Except.ok p =>
      match process_all_emails rest with
      | Except.error u => Except.error u
      | Except.ok ps => Except.ok (p :: ps)

/-- Python substring membership (the in operator on str): needle occurs
as a contiguous run of hay. An empty needle is contained in everything. -/
def listContainsSub (needle : List Char) : List Char → Bool
  | [] => needle.isEmpty
  | c :: rest => needle.isPrefixOf (c :: rest) || listContainsSub needle rest

/-- Python str.lower restricted to the alphabet actually exercised here
(ASCII); applied character by character. -/
def strLower (s : String) : String :=
  String.mk (s.data.map Char.toLower)

/-- Case-insensitive substring test, as in
username.lower() in from_header.lower(). -/
def containsCI (needle hay : String) : Bool :=
  listContainsSub (strLower needle).data (strLower hay).data

/-- The whitespace characters stripped by Python str.strip(): space,
tab, newline, carriage return, vertical tab, form feed (the ASCII
whitespace class; the unicode extension is not exercised here). -/
def isPySpace (c : Char) : Bool :=
  c = ' ' || c = '\t' || c = '\n' || c = '\r' || c = Char.ofNat 11 || c = Char.ofNat 12

/-- Python str.strip(): drop leading and trailing whitespace. -/
def pyStrip (s : String) : String :=
  String.mk (((s.data.dropWhile isPySpace).reverse.dropWhile isPySpace).reverse)

/-- One MIME part as seen by the walk loop: its content type and its
decoded payload text; none models get_payload(decode=True).decode
raising (the except-pass branch skips that part). -/
structure RawPart where
  ct : String
  payload : Option String

/-- The payload of a fetched message: either multipart with its parts
in walk order, or a single payload with its content type. -/
inductive MsgPayload where
  | multipart (parts : List RawPart) : MsgPayload
  | single (ct : String) (payload : Option String) : MsgPayload

/-- A raw fetched message: the four headers read by extract_email_data
(already defaulted to the empty string when absent, as msg.get does)
and the payload. -/
structure RawMsg where
  subject : String
  fromHdr : String
  toHdr : String
  date : String
  payload : MsgPayload

/-- The body text accumulated by the extraction loops: every text/plain
part contributes its decoded text, every text/html part contributes its
conversion through extract_text_from_html (modelled by the total
function htmlConv, since the Python converter falls back to the raw
HTML string rather than raise), all other parts contribute nothing; a
part whose decoding raises is skipped. A non-multipart payload follows
the same plain/HTML decision on its single content. -/
def extractBody (htmlConv : String → String) : MsgPayload → String
  | MsgPayload.multipart parts =>
    parts.foldl (fun acc p =>
      if p.ct = "text/plain" then acc ++ (p.payload.getD "")
      else if p.ct = "text/html" then acc ++ ((p.payload.map htmlConv).getD "")
      else acc) ""
  | MsgPayload.single ct payload =>
    match payload with
    | none => ""
    | some content => if ct = "text/html" then htmlConv content else content

/-- extract_email_data: none input (a failed fetch) gives none; a
message whose From header contains the owner address case-insensitively
is returned immediately with is_from_me true and no body extraction;
otherwise the body is extracted and stripped. -/
def extract_email_data (username : String) (htmlConv : String → String)
    (msg : Option RawMsg) : Option EmailData :=
  match msg with
  | none => none
  | some m =>
    if containsCI username m.fromHdr then
      some ⟨m.subject, m.fromHdr, m.toHdr, m.date, "", true⟩
    else
      some ⟨m.subject, m.fromHdr, m.toHdr, m.date,
            pyStrip (extractBody htmlConv m.payload), false⟩

/-- The loop body of fetch_messages with its accumulator email_list:
extract each fetch result in order and append exactly the records that
are non-null, not from the owner, and have a truthy (non-empty) body. -/
def fetchLoop (username : String) (htmlConv : String → String)
    (acc : List EmailData) : List (Option RawMsg) → List EmailData
  | [] => acc
  | r :: rest =>
    match extract_email_data username htmlConv r with
    | some d =>
      if !d.is_from_me && d.body != "" then
        fetchLoop username htmlConv (acc ++ [d]) rest
      else fetchLoop username htmlConv acc rest
    | none => fetchLoop username htmlConv acc rest

/-- fetch_messages: loop over the per-id fetch results (the outcome of
fetch_email_by_id for each listed id, none on a failed fetch), starting
from the empty email_list. -/
def fetch_messages (username : String) (htmlConv : String → String)
    (fetchResults : List (Option RawMsg)) : List EmailData :=
  fetchLoop username htmlConv [] fetchResults

/-- A processed email as consumed by the aggregation and report steps:
the fields those steps read, with categories a list of labels and
importance an integer (the shape the pipeline produces when the service
reply is well-typed, and the shape the fallback always produces). -/
structure AMsg where
  subject : String
  fromHdr : String
  categories : List String
  summary : String
  importance : Int
deriving DecidableEq

/-- Append one email to the group of one category label, creating the
group at the end when the label is new — exactly the dict update
category_groups[category].append(email) guarded by the not-in check,
with Python dict insertion order. -/
def addToGroup (gs : List (String × List AMsg)) (c : String) (e : AMsg) :
    List (String × List AMsg) :=
  match gs with
  | [] => [(c, [e])]
  | (k, v) :: rest =>
    if k = c then (k, v ++ [e]) :: rest else (k, v) :: addToGroup rest c e

/-- The grouping loop of generate_category_summaries: for each email in
batch order, for each label occurrence in its categories list, append
the email to that label's group. -/
def groupByCategory (emails : List AMsg) : List (String × List AMsg) :=
  emails.foldl (fun gs e => e.categories.foldl (fun gs2 c => addToGroup gs2 c e) gs) []

/-- The members of one label's group (the empty list when the label has
no group): first-match association lookup, which on the group lists
built here (unique keys) coincides with Python dict lookup. -/
def lookupGroup (c : String) : List (String × List AMsg) → List AMsg
  | [] => []
  | (k, v) :: rest => if k = c then v else lookupGroup c rest

/-- Stable insertion into a descending-by-importance list: the new
element goes before the first element of no larger importance. Used
right-to-left, this places an earlier-input element before every
equal-importance later-input element. -/
def insertByImportance (m : AMsg) : List AMsg → List AMsg
  | [] => [m]
  | x :: xs =>
    if x.importance ≤ m.importance then m :: x :: xs
    else x :: insertByImportance m xs

/-- sorted(processed_emails, key=lambda x: x.importance, reverse=True):
Python sorted is specified as the stable sort by the key, and
reverse=True inverts the comparison while keeping equal-key elements in
input order; the stable descending sort is unique, and this insertion
sort realises it. -/
def sortByImportanceDesc (l : List AMsg) : List AMsg :=
  l.foldr insertByImportance []

/-- get_top_important_emails: stable descending sort, then the first
top_n entries. -/
def get_top_important_emails (processed : List AMsg) (top_n : Nat := 10) : List AMsg :=
  (sortByImportanceDesc processed).take top_n

/-- Python conditional truncation with ellipsis:
s[:n] + ('...' if len(s) > n else ''). -/
def truncEllipsis (s : String) (n : Nat) : String :=
  strTake s n ++ (if s.length > n then "..." else "")

/-- One line of the brief top-emails list. -/
def briefLine (i : Nat) (e : AMsg) : String :=
  toString i ++ ". **" ++ truncEllipsis e.subject 60 ++ "** - " ++
    truncEllipsis e.summary 80 ++ " (Importance: " ++ toString e.importance ++ "/10)\n\n"

/-- One block of the detailed top-emails list. -/
def detailBlock (i : Nat) (e : AMsg) : String :=
  "### " ++ toString i ++ ". " ++ e.subject ++ "\n" ++
  "**From:** " ++ e.fromHdr ++ "\n" ++
  "**Categories:** " ++ String.intercalate ", " e.categories ++ "\n" ++
  "**Importance:** " ++ toString e.importance ++ "/10\n" ++
  "**Summary:** " ++ e.summary ++ "\n\n"

/-- Number a list from 1, as enumerate(top_emails, 1). -/
def enumerate1 (l : List AMsg) : List (Nat × AMsg) :=
  (List.range l.length).zip l |>.map (fun p => (p.1 + 1, p.2))

/-- generate_report. The wall-clock reading
datetime.now().strftime('%Y-%m-%d %H:%M:%S') taken inside the function
is made an explicit input now; everything else is the f-string assembly
of the source, in source order. -/
def generate_report (processed : List AMsg)
    (category_summaries : List (String × String)) (top_emails : List AMsg)
    (now : String) : String :=
  "\n# Gmail Email Analysis Report\nGenerated: " ++ now ++
  "\n\n## Summary\nAnalyzed " ++ toString processed.length ++
  " emails from the past 24 hours.\n\n## Category Summaries\n\n" ++
  String.join (category_summaries.map (fun p => "### " ++ p.1 ++ "\n" ++ p.2 ++ "\n\n")) ++
  "## Top 10 Most Important Emails (Brief)\n\n" ++
  String.join ((enumerate1 top_emails).map (fun p => briefLine p.1 p.2)) ++
  "## Top 10 Most Important Emails (Detailed Summaries)\n\n" ++
  String.join ((enumerate1 top_emails).map (fun p => detailBlock p.1 p.2))

/-- The observable mail-session and delivery actions of run that the
resource-release claim is about. close and logout are the two calls in
the finally block; send marks reaching send_email_report (which catches
its own failures). -/
inductive Event where
  | close : Event
  | logout : Event
  | send : Event
deriving DecidableEq

/-- The environment of one run: the outcomes of every external effect.
connectOk models connect_to_server (which catches its own errors and
returns None on failure); messageIds the result of get_all_message_ids
(total: it catches everything and returns a list); fetchResults the
per-id outcomes of fetch_email_by_id; apiOutcomes the per-email service
outcomes consumed by process_all_emails; laterRaises an exception
escaping a later pipeline stage (e.g. generate_category_summaries
iterating a non-list categories value). -/
structure RunEnv where
  connectOk : Bool
  username : String
  htmlConv : String → String
  messageIds : List Nat
  fetchResults : List (Option RawMsg)
  apiOutcomes : List ApiOutcome
  laterRaises : Bool

/-- run: connect (early return on failure, before the session exists),
then the try body — early return on an empty id list, early return on
an empty filtered batch, then the processing pipeline, whose uncaught
exceptions (modelled by Except.error from process_all_emails, or
laterRaises) propagate — and in every case the finally block, which
closes and logs out the session. Returns the emitted events and
whether an exception escaped. -/
def run (env : RunEnv) : List Event × Bool :=
  if env.connectOk = false then ([], false)
  else
    let body : List Event × Bool :=
      if env.messageIds.isEmpty then ([], false)
      else
        let email_list := fetch_messages env.username env.htmlConv env.fetchResults
        if email_list.isEmpty then ([], false)
        else
          match process_all_emails (email_list.zip env.apiOutcomes) with
          | Except.error _ => ([], true)
          | Except.ok _ =>
            if env.laterRaises then ([], true) else ([Event.send], false)
    (body.1 ++ [Event.close, Event.logout], body.2)

/-- Whether an analysis dict carries the three keys process_all_emails
subscripts; absent keys make the loop body raise KeyError. -/
def hasAnalysisKeys (j : Json) : Bool :=
  (jget j "categories").isSome && (jget j "summary").isSome && (jget j "importance").isSome

/-- A service reply with the example object of the spec embedded in
surrounding prose (prose free of braces, so the greedy span is exactly
the object). -/
def c5Reply : String :=
  "Here is the analysis you asked for: \x7b\"categories\": [\"WORK\", \"FINANCE\"], \"summary\": \"S\", \"importance\": 7\x7d Hope that helps."

/-- The parsed value of the example object. -/
def c5Parsed : Json :=
  Json.obj [("categories", Json.arr [Json.str "WORK", Json.str "FINANCE"]),
            ("summary", Json.str "S"),
            ("importance", Json.num 7)]

/-- A service reply containing no braces at all. -/
def c5NoBrace : String := "Sorry, I cannot analyze this email."

/-- A service reply whose brace span is not valid JSON. -/
def c5Malformed : String := "\x7b categories: WORK \x7d"

/-- A syntactically valid service reply whose object breaks every part
of the spec invariant: importance outside [1,10], four categories, one
of them outside the 22-label set. -/
def c1BadReply : String :=
  "\x7b\"categories\": [\"ALPHA\", \"WORK\", \"NEWS\", \"SPORT\"], \"summary\": \"s\", \"importance\": 99\x7d"

/-- A well-formed but arbitrary JSON service reply: parses, but has
none of the keys the batch loop subscripts. -/
def c2BadReply : String := "\x7b\"x\": 1\x7d"

/-- A concrete normalized message used by the batch-loop examples. -/
def sampleEmail : EmailData :=
  ⟨"Meeting tomorrow", "alice@example.com", "owner@example.com", "Mon, 6 Oct 2025", "See you at 10.", false⟩

/-- The mailbox owner address of the concrete extraction scenario. -/
def c7Owner : String := "owner@example.com"

/-- A raw message authored by the owner (the address appears in the
From header up to case). -/
def c7OwnerRaw : RawMsg :=
  ⟨"Note to self", "Me <Owner@Example.COM>", "owner@example.com", "Mon",
   MsgPayload.single "text/plain" (some "remember the milk")⟩

/-- A raw external message with a non-empty plain-text body. -/
def c7ExternalRaw : RawMsg :=
  ⟨"Invoice", "billing@shop.example", "owner@example.com", "Tue",
   MsgPayload.single "text/plain" (some "  Your invoice is attached. ")⟩

/-- A raw external message whose body is whitespace only. -/
def c7BlankRaw : RawMsg :=
  ⟨"(blank)", "noreply@shop.example", "owner@example.com", "Wed",
   MsgPayload.single "text/plain" (some "   \n\t ")⟩

/-- Scenario message tagged WORK only. -/
def c8MsgWork : AMsg := ⟨"m1", "a@x.example", ["WORK"], "s1", 5⟩

/-- Scenario message tagged WORK and FINANCE. -/
def c8MsgBoth : AMsg := ⟨"m2", "b@x.example", ["WORK", "FINANCE"], "s2", 6⟩

/-- Scenario message tagged FINANCE only. -/
def c8MsgFin : AMsg := ⟨"m3", "c@x.example", ["FINANCE"], "s3", 7⟩

/-- A message carrying the same label twice, with the label outside the
fixed 22-label set. -/
def c10DupMsg : AMsg := ⟨"d", "d@x.example", ["XDUP", "XDUP"], "sd", 1⟩

/-- A concrete run environment whose connection succeeds and whose body
completes normally. -/
def c4Env : RunEnv :=
  ⟨true, c7Owner, id, [1], [some c7ExternalRaw], [ApiOutcome.ok c5Reply], false⟩

/-- Looking a label up after one append: the append lands in exactly
that label's group and leaves every other group unchanged. -/
theorem lookupGroup_addToGroup (gs : List (String × List AMsg)) (c c' : String) (e : AMsg) :
    lookupGroup c (addToGroup gs c' e) =
      if c' = c then lookupGroup c gs ++ [e] else lookupGroup c gs := by
  induction gs with
  | nil =>
    by_cases h : c' = c <;> simp [addToGroup, lookupGroup, h]
  | cons p rest ih =>
    obtain ⟨k, v⟩ := p
    by_cases hk : k = c'
    · subst hk
      by_cases h : k = c <;> simp [addToGroup, lookupGroup, h]
    · by_cases h : k = c
      · subst h
        have hne : ¬ c' = k := fun hcc => hk hcc.symm
        simp [addToGroup, lookupGroup, hk, hne]
      · simp [addToGroup, lookupGroup, hk, h, ih]

/-- The inner loop of the grouping step, over one message's categories
list: the label c's group gains one copy of the message per occurrence
of c in the list. -/
theorem lookupGroup_foldCats (cats : List String) (gs : List (String × List AMsg))
    (e : AMsg) (c : String) :
    lookupGroup c (cats.foldl (fun gs2 c2 => addToGroup gs2 c2 e) gs) =
      lookupGroup c gs ++ (cats.filter (fun x => x = c)).map (fun _ => e) := by
  induction cats generalizing gs with
  | nil => simp
  | cons c2 cats ih =>
    simp only [List.foldl_cons, ih, lookupGroup_addToGroup]
    by_cases h : c2 = c <;> simp [h]

/-- The grouping loop over the whole batch, from an arbitrary starting
group table. -/
theorem lookupGroup_foldMsgs (msgs : List AMsg) (gs : List (String × List AMsg)) (c : String) :
    lookupGroup c (msgs.foldl (fun gs2 e => e.categories.foldl (fun gs3 c2 => addToGroup gs3 c2 e) gs2) gs) =
      lookupGroup c gs ++ msgs.flatMap (fun m => (m.categories.filter (fun x => x = c)).map (fun _ => m)) := by
  induction msgs generalizing gs with
  | nil => simp
  | cons m msgs ih =>
    simp only [List.foldl_cons, ih, lookupGroup_foldCats, List.flatMap_cons, List.append_assoc]

/-- Characterization of one label's group: one copy of each message per
occurrence of the label in its categories list, in batch order. -/
theorem lookupGroup_groupByCategory (msgs : List AMsg) (c : String) :
    lookupGroup c (groupByCategory msgs) =
      msgs.flatMap (fun m => (m.categories.filter (fun x => x = c)).map (fun _ => m)) := by
  simpa [groupByCategory] using lookupGroup_foldMsgs msgs [] c

/-- A label whose group is non-empty really is a key of the group
table, with that group as its value. -/
theorem lookupGroup_mem (c : String) (gs : List (String × List AMsg))
    (h : lookupGroup c gs ≠ []) : (c, lookupGroup c gs) ∈ gs := by
  induction gs with
  | nil => simp [lookupGroup] at h
  | cons p rest ih =>
    obtain ⟨k, v⟩ := p
    by_cases hk : k = c
    · subst hk
      simp [lookupGroup]
    · simp only [lookupGroup, if_neg hk] at h ⊢
      exact List.mem_cons_of_mem _ (ih h)


/-- Inserting adds exactly one element. -/
theorem length_insertByImportance (m : AMsg) (l : List AMsg) :
    (insertByImportance m l).length = l.length + 1 := by
  induction l with
  | nil => rfl
  | cons x xs ih =>
    by_cases h : x.importance ≤ m.importance <;>
      simp [insertByImportance, h, ih]

/-- The sort permutes, so it preserves length. -/
theorem length_sortByImportanceDesc (l : List AMsg) :
    (sortByImportanceDesc l).length = l.length := by
  induction l with
  | nil => rfl
  | cons x xs ih =>
    show (insertByImportance x (sortByImportanceDesc xs)).length = xs.length + 1
    rw [length_insertByImportance, ih]

/-- Membership in an insertion. -/
theorem mem_insertByImportance {x m : AMsg} {l : List AMsg} :
    x ∈ insertByImportance m l ↔ x = m ∨ x ∈ l := by
  induction l with
  | nil => simp [insertByImportance]
  | cons y ys ih =>
    by_cases h : y.importance ≤ m.importance
    · simp [insertByImportance, h]
    · simp only [insertByImportance, if_neg h, List.mem_cons, ih]
      tauto

/-- Inserting into a descending list keeps it descending. -/
theorem pairwise_insertByImportance (m : AMsg) (l : List AMsg)
    (h : List.Pairwise (fun a b => b.importance ≤ a.importance) l) :
    List.Pairwise (fun a b => b.importance ≤ a.importance) (insertByImportance m l) := by
  induction l with
  | nil => simp [insertByImportance]
  | cons x xs ih =>
    by_cases hle : x.importance ≤ m.importance
    · rw [insertByImportance, if_pos hle]
      refine List.pairwise_cons.mpr ⟨?_, h⟩
      intro y hy
      rcases List.mem_cons.mp hy with hxy | hys
      · exact hxy ▸ hle
      · exact le_trans (List.rel_of_pairwise_cons h hys) hle
    · rw [insertByImportance, if_neg hle]
      rcases List.pairwise_cons.mp h with ⟨hx, hxs⟩
      refine List.pairwise_cons.mpr ⟨?_, ih hxs⟩
      intro y hy
      rcases mem_insertByImportance.mp hy with rfl | hys
      · exact le_of_lt (lt_of_not_le hle)
      · exact hx y hys

/-- The full sort is descending by importance. -/
theorem pairwise_sortByImportanceDesc (l : List AMsg) :
    List.Pairwise (fun a b => b.importance ≤ a.importance) (sortByImportanceDesc l) := by
  induction l with
  | nil => simp [sortByImportanceDesc]
  | cons x xs ih => exact pairwise_insertByImportance x _ ih

/-- Filtering an insertion at one importance value: the elements the
insertion passes over are strictly more important, so the new element
lands at the front of its own value class. -/
theorem filter_insertByImportance (m : AMsg) (l : List AMsg) (v : Int) :
    (insertByImportance m l).filter (fun x => x.importance == v) =
      if m.importance == v then m :: l.filter (fun x => x.importance == v)
      else l.filter (fun x => x.importance == v) := by
  induction l with
  | nil =>
    by_cases h : m.importance = v <;> simp [insertByImportance, h]
  | cons x xs ih =>
    by_cases hle : x.importance ≤ m.importance
    · rw [insertByImportance, if_pos hle]
      by_cases h : m.importance = v <;> simp [h, List.filter_cons]
    · rw [insertByImportance, if_neg hle]
      have hlt : m.importance < x.importance := lt_of_not_le hle
      by_cases h : m.importance = v
      · have hx : ¬ x.importance = v := by omega
        simp [List.filter_cons, hx, ih, h]
      · by_cases hx : x.importance = v <;> simp [List.filter_cons, hx, ih, h]

/-- Stability of the sort: within one importance value, the sort is the
identity on the subsequence. -/
theorem filter_sortByImportanceDesc (l : List AMsg) (v : Int) :
    (sortByImportanceDesc l).filter (fun x => x.importance == v) =
      l.filter (fun x => x.importance == v) := by
  induction l with
  | nil => rfl
  | cons x xs ih =>
    show (insertByImportance x (sortByImportanceDesc xs)).filter _ = _
    rw [filter_insertByImportance, ih]
    by_cases h : x.importance = v <;> simp [List.filter_cons, h]

/-- A prefix stays a prefix after filtering. -/
theorem isPrefix_filter_of_isPrefix {l₁ l₂ : List AMsg} (p : AMsg → Bool)
    (h : l₁ <+: l₂) : l₁.filter p <+: l₂.filter p := by
  obtain ⟨t, ht⟩ := h
  exact ⟨t.filter p, by rw [← ht, List.filter_append]⟩

/-- C6: get_top_important_emails is a stable descending sort truncated
to the top entries: when called without top_n it truncates at the
default 10; for every input and every top_n the output has exactly
min(top_n, input length) entries, is sorted by importance descending,
and within each importance value the output is a prefix of the input
subsequence of that value (equal-importance messages keep their input
order). -/
theorem C6_rank_stable_truncated :
    (∀ l : List AMsg, get_top_important_emails l = (sortByImportanceDesc l).take 10) ∧
    ∀ (l : List AMsg) (n : Nat),
      (get_top_important_emails l n).length = min n l.length ∧
      List.Pairwise (fun a b => b.importance ≤ a.importance) (get_top_important_emails l n) ∧
      ∀ v : Int,
        (get_top_important_emails l n).filter (fun x => x.importance == v) <+:
          l.filter (fun x => x.importance == v) := by
  refine ⟨fun l => rfl, fun l n => ⟨?_, ?_, ?_⟩⟩
  · show ((sortByImportanceDesc l).take n).length = min n l.length
    rw [List.length_take, length_sortByImportanceDesc]
  · exact List.Pairwise.sublist (List.take_sublist n _) (pairwise_sortByImportanceDesc l)
  · intro v
    have htake : (sortByImportanceDesc l).take n <+: sortByImportanceDesc l :=
      ⟨(sortByImportanceDesc l).drop n, List.take_append_drop n _⟩
    have hp := isPrefix_filter_of_isPrefix (fun x => x.importance == v) htake
    rwa [filter_sortByImportanceDesc] at hp

/-- dropWhile is idempotent. -/
theorem dropWhile_idem (p : Char → Bool) (l : List Char) :
    List.dropWhile p (List.dropWhile p l) = List.dropWhile p l := by
  have h := List.head?_dropWhile_not p l
  cases hl : List.dropWhile p l with
  | nil => simp
  | cons x xs =>
    rw [hl] at h
    simp only [List.head?_cons] at h
    simp [List.dropWhile_cons, h]

/-- Python str.strip is idempotent. -/
theorem pyStrip_idem (s : String) : pyStrip (pyStrip s) = pyStrip s := by
  show String.mk _ = String.mk _
  unfold pyStrip
  simp only []
  set l := s.data with hldef
  set a := l.dropWhile isPySpace with hadef
  set b := a.reverse.dropWhile isPySpace with hbdef
  obtain ⟨t, ht⟩ : b <:+ a.reverse := List.dropWhile_suffix isPySpace
  have ha : a = b.reverse ++ t.reverse := by
    have := congrArg List.reverse ht
    simpa [List.reverse_append] using this.symm
  cases hb : b.reverse with
  | nil => simp [hb]
  | cons x rs =>
    have hx : isPySpace x = false := by
      have hhd := List.head?_dropWhile_not isPySpace l
      rw [← hadef] at hhd
      rw [ha, hb] at hhd
      simpa using hhd
    have h1 : List.dropWhile isPySpace (x :: rs) = x :: rs := by
      simp [List.dropWhile_cons, hx]
    rw [h1]
    have h2 : (x :: rs).reverse = b := by rw [← hb, List.reverse_reverse]
    rw [h2, hbdef, dropWhile_idem, ← hbdef, hb]

/-- The fetch loop from an arbitrary accumulator: it appends exactly
the extracted records passing the keep condition, in order. -/
theorem fetchLoop_eq (u : String) (conv : String → String)
    (rs : List (Option RawMsg)) (acc : List EmailData) :
    fetchLoop u conv acc rs =
    acc ++ (rs.filterMap (extract_email_data u conv)).filter
      (fun d => !d.is_from_me && d.body != "") := by
  induction rs generalizing acc with
  | nil => simp [fetchLoop]
  | cons r rs ih =>
    rw [fetchLoop]
    cases hr : extract_email_data u conv r with
    | none => simp [List.filterMap_cons, hr, ih]
    | some d =>
      by_cases hd : (!d.is_from_me && d.body != "") = true
      · simp [List.filterMap_cons, hr, hd, ih, List.filter_cons]
      · simp only [Bool.not_eq_true] at hd
        simp [List.filterMap_cons, hr, hd, ih, List.filter_cons]

/-- The keep condition characterizes fetch_messages. -/
theorem fetch_messages_eq (u : String) (conv : String → String)
    (rs : List (Option RawMsg)) :
    fetch_messages u conv rs =
      (rs.filterMap (extract_email_data u conv)).filter
        (fun d => !d.is_from_me && d.body != "") := by
  simpa using fetchLoop_eq u conv rs []

/-- A non-owner record produced by extraction has a stripped body. -/
theorem extract_body_stripped (u : String) (conv : String → String)
    (r : Option RawMsg) (d : EmailData)
    (hr : extract_email_data u conv r = some d) (hf : d.is_from_me = false) :
    pyStrip d.body = d.body := by
  cases r with
  | none => simp [extract_email_data] at hr
  | some m =>
    by_cases hc : containsCI u m.fromHdr = true
    · rw [extract_email_data, if_pos hc] at hr
      cases hr
      simp at hf
    · rw [extract_email_data, if_neg hc] at hr
      cases hr
      exact pyStrip_idem _

/-- C7: the batch filter keeps exactly the right records: the output of
the fetch loop is the sequence of extracted records that are non-null,
not from the owner, and have a truthy body; every kept record has
isFromOwner false and a body that is non-empty after whitespace
trimming; a two-message batch of one owner message and one external
non-empty message yields exactly the external record; a whitespace-only
body is dropped. -/
theorem C7_filter_keeps_right_records :
    (∀ (u : String) (conv : String → String) (rs : List (Option RawMsg)),
      fetch_messages u conv rs =
        (rs.filterMap (extract_email_data u conv)).filter
          (fun d => !d.is_from_me && d.body != "")) ∧
    (∀ (u : String) (conv : String → String) (rs : List (Option RawMsg)) (d : EmailData),
      d ∈ fetch_messages u conv rs → d.is_from_me = false ∧ pyStrip d.body ≠ "") ∧
    fetch_messages c7Owner id [some c7OwnerRaw, some c7ExternalRaw] =
      [⟨"Invoice", "billing@shop.example", "owner@example.com", "Tue",
        "Your invoice is attached.", false⟩] ∧
    fetch_messages c7Owner id [some c7BlankRaw] = [] := by
  refine ⟨fetch_messages_eq, ?_, rfl, rfl⟩
  intro u conv rs d hd
  rw [fetch_messages_eq] at hd
  have hmem := List.mem_filter.mp hd
  obtain ⟨hin, hkeep⟩ := hmem
  have hkeep2 := Bool.and_eq_true_iff.mp hkeep
  have hnotme : d.is_from_me = false := by
    have := hkeep2.1
    simpa using this
  have hbody : d.body ≠ "" := by
    have := hkeep2.2
    simpa [bne_iff_ne] using this
  obtain ⟨r, _, hr⟩ := List.mem_filterMap.mp hin
  have hstr := extract_body_stripped u conv r d hr hnotme
  exact ⟨hnotme, by rw [hstr]; exact hbody⟩

/-- Witness for C7 at a concrete batch: the kept external record of the
two-message scenario is not from the owner. -/
theorem C7_filter_keeps_right_records_witness :
    (⟨"Invoice", "billing@shop.example", "owner@example.com", "Tue",
      "Your invoice is attached.", false⟩ : EmailData).is_from_me = false :=
  (C7_filter_keeps_right_records.2.1 c7Owner id [some c7OwnerRaw, some c7ExternalRaw] _
    (by rw [C7_filter_keeps_right_records.2.2.1]; exact List.mem_singleton.mpr rfl)).1

/-- C9: when the owner address occurs case-insensitively in the From
header, extraction returns is_from_me true with an empty body; the
result does not depend on the HTML converter or the message payload, so
no body extraction is performed. -/
theorem C9_owner_short_circuit :
    ∀ (u : String) (conv : String → String) (m : RawMsg),
      containsCI u m.fromHdr = true →
      extract_email_data u conv (some m) =
        some ⟨m.subject, m.fromHdr, m.toHdr, m.date, "", true⟩ := by
  intro u conv m h
  simp [extract_email_data, h]

/-- Witness for C9 at a concrete owner-authored message. -/
theorem C9_owner_short_circuit_witness :
    extract_email_data c7Owner id (some c7OwnerRaw) =
      some ⟨"Note to self", "Me <Owner@Example.COM>", "owner@example.com", "Mon", "", true⟩ :=
  C9_owner_short_circuit c7Owner id c7OwnerRaw (by decide)

/-- C1 counterexample: a syntactically valid service reply is returned
verbatim by the analysis step with no validation, so its analyzed
record has importance 99 and four categories, one outside the 22-label
set — the invariant fails on an analysis-step output built from a
parsed service reply. -/
theorem C1_counterexample :
    categorize_and_summarize_email (ApiOutcome.ok c1BadReply) =
      Json.obj [("categories", Json.arr [Json.str "ALPHA", Json.str "WORK",
                  Json.str "NEWS", Json.str "SPORT"]),
                ("summary", Json.str "s"),
                ("importance", Json.num 99)] ∧
    validAnalysis (categorize_and_summarize_email (ApiOutcome.ok c1BadReply)) = false :=
  ⟨rfl, rfl⟩

/-- C1 (amended): every AnalyzedMessage built from the fallback — that
is, whenever the reply yields no parsed JSON object, including every
request failure — satisfies the invariant: importance in [1,10] and 1
to 3 categories from the fixed 22-label set; results parsed from a
service reply are returned verbatim and carry no such guarantee. -/
theorem C1_fallback_invariant :
    ∀ outcome : ApiOutcome, parsedReply outcome = none →
      validAnalysis (categorize_and_summarize_email outcome) = true := by
  intro o h
  cases o with
  | err e => rfl
  | ok reply =>
    simp only [parsedReply] at h
    simp only [categorize_and_summarize_email]
    cases hs : jsonSpan reply with
    | none => rfl
    | some span =>
      rw [hs] at h
      dsimp only at h ⊢
      rw [h]
      rfl

/-- Witness for C1 at a concrete request failure. -/
theorem C1_fallback_invariant_witness :
    validAnalysis (categorize_and_summarize_email (ApiOutcome.err "connection refused")) = true :=
  C1_fallback_invariant (ApiOutcome.err "connection refused") rfl

/-- C2 counterexample: a well-formed but arbitrary JSON reply parses,
is returned verbatim, and then the batch loop's subscript lookups raise
KeyError: the run aborts instead of keeping the message. -/
theorem C2_counterexample :
    process_all_emails [(sampleEmail, ApiOutcome.ok c2BadReply)] = Except.error () :=
  rfl

/-- C2 (amended): the batch loop keeps every message and never raises
provided each analysis result carries the categories, summary and
importance keys; in particular every fallback result — request failure
or unparseable reply — carries them, so those failures are indeed
non-fatal. A parsed reply missing one of the keys crashes the loop. -/
theorem C2_keys_nonfatal :
    (∀ outcome : ApiOutcome, parsedReply outcome = none →
      hasAnalysisKeys (categorize_and_summarize_email outcome) = true) ∧
    ∀ batch : List (EmailData × ApiOutcome),
      (∀ p ∈ batch, hasAnalysisKeys (categorize_and_summarize_email p.2) = true) →
      ∃ ps : List ProcessedEmail, process_all_emails batch = Except.ok ps ∧
        ps.map (fun q => q.email) = batch.map (fun p => p.1) := by
  constructor
  · intro o h
    cases o with
    | err e => rfl
    | ok reply =>
      simp only [parsedReply] at h
      simp only [categorize_and_summarize_email]
      cases hs : jsonSpan reply with
      | none => rfl
      | some span =>
        rw [hs] at h
        dsimp only at h ⊢
        rw [h]
        rfl
  · intro batch
    induction batch with
    | nil => exact fun _ => ⟨[], rfl, rfl⟩
    | cons p rest ih =>
      intro h
      obtain ⟨e, o⟩ := p
      have he := h (e, o) (List.mem_cons_self _ _)
      have hrest := ih (fun q hq => h q (List.mem_cons_of_mem _ hq))
      obtain ⟨ps, hps, hmap⟩ := hrest
      simp only [hasAnalysisKeys, Bool.and_eq_true, Option.isSome_iff_exists] at he
      obtain ⟨⟨⟨cs, hcs⟩, ⟨su, hsu⟩⟩, ⟨im, him⟩⟩ := he
      refine ⟨⟨e, cs, su, im⟩ :: ps, ?_, ?_⟩
      · rw [process_all_emails, processOne, hcs, hsu, him, hps]
      · simp [hmap]

/-- Witness for C2 at a concrete one-message batch whose analysis
request fails: the loop returns the message augmented with the
fallback. -/
theorem C2_keys_nonfatal_witness :
    ∃ ps : List ProcessedEmail,
      process_all_emails [(sampleEmail, ApiOutcome.err "timeout")] = Except.ok ps ∧
      ps.map (fun q => q.email) = [sampleEmail] :=
  C2_keys_nonfatal.2 [(sampleEmail, ApiOutcome.err "timeout")]
    (by intro p hp; rw [List.mem_singleton] at hp; subst hp; rfl)

/-- C5: reply parsing takes the greedy span from the first opening
brace to the last closing brace and json.loads-parses it; a reply whose
span parses is returned verbatim (shown in general and on the concrete
prose-embedded example object, whose span is exactly the object text);
a brace-free reply and a malformed-braces reply both give the fixed
fallback triple (categories [PERSONAL], the fixed could-not-be-analyzed
summary, importance 5). -/
theorem C5_reply_parsing :
    (∀ (reply : String) (j : Json), parsedReply (ApiOutcome.ok reply) = some j →
      categorize_and_summarize_email (ApiOutcome.ok reply) = j) ∧
    jsonSpan c5Reply =
      some "\x7b\"categories\": [\"WORK\", \"FINANCE\"], \"summary\": \"S\", \"importance\": 7\x7d" ∧
    categorize_and_summarize_email (ApiOutcome.ok c5Reply) = c5Parsed ∧
    categorize_and_summarize_email (ApiOutcome.ok c5NoBrace) = fallbackResult ∧
    categorize_and_summarize_email (ApiOutcome.ok c5Malformed) = fallbackResult := by
  refine ⟨?_, rfl, rfl, rfl, rfl⟩
  intro reply j h
  simp only [parsedReply] at h
  simp only [categorize_and_summarize_email]
  cases hs : jsonSpan reply with
  | none =>
    rw [hs] at h
    simp at h
  | some span =>
    rw [hs] at h
    dsimp only at h ⊢
    rw [h]

/-- Witness for C5 at the concrete prose-embedded reply. -/
theorem C5_reply_parsing_witness :
    categorize_and_summarize_email (ApiOutcome.ok c5Reply) = c5Parsed :=
  C5_reply_parsing.1 c5Reply c5Parsed rfl

/-- C3 counterexample: generate_report reads the wall clock inside the
function (modelled by the explicit now input), so two calls on the very
same triple of inputs made at different clock readings produce
different output texts — the output is not a function of the triple
alone. -/
theorem C3_counterexample :
    (generate_report [] [] [] "2025-01-01 09:00:00" ==
      generate_report [] [] [] "2025-01-01 09:00:01") = false := by
  decide

/-- C3 (amended): the Report Builder is deterministic given its three
inputs and the generation-time reading: for every triple the output is
a fixed prefix, then the clock text, then a suffix computed from the
triple alone — so two calls on the same triple agree byte for byte
everywhere outside the explicit generation-time field, and agree
entirely when the clock readings coincide. -/
theorem C3_report_time_dependence :
    ∀ (processed : List AMsg) (cats : List (String × String)) (top : List AMsg),
      ∃ pre post : String, ∀ now : String,
        generate_report processed cats top now = pre ++ (now ++ post) := by
  intro p cs t
  refine ⟨"\n# Gmail Email Analysis Report\nGenerated: ",
    "\n\n## Summary\nAnalyzed " ++ toString p.length ++
    " emails from the past 24 hours.\n\n## Category Summaries\n\n" ++
    String.join (cs.map (fun q => "### " ++ q.1 ++ "\n" ++ q.2 ++ "\n\n")) ++
    ("## Top 10 Most Important Emails (Brief)\n\n" ++
     (String.join ((enumerate1 t).map (fun q => briefLine q.1 q.2)) ++
      ("## Top 10 Most Important Emails (Detailed Summaries)\n\n" ++
       String.join ((enumerate1 t).map (fun q => detailBlock q.1 q.2))))), fun now => ?_⟩
  unfold generate_report
  simp only [String.append_assoc]

/-- C4: once the connection is opened, every exit path of run — the two
early returns, normal completion, and every exception escaping the
processing pipeline — ends by performing close and then logout (the
finally block). -/
theorem C4_session_release :
    ∀ env : RunEnv, env.connectOk = true →
      ∃ pre : List Event, (run env).1 = pre ++ [Event.close, Event.logout] := by
  intro env h
  unfold run
  rw [h]
  exact ⟨_, rfl⟩

/-- Witness for C4 at a concrete environment with a successful
connection and a normally completing body. -/
theorem C4_session_release_witness :
    ∃ pre : List Event, (run c4Env).1 = pre ++ [Event.close, Event.logout] :=
  C4_session_release c4Env rfl

/-- C8: grouping by category is not a partition: a message belongs to
the group of every label in its categories list, so a message with N
distinct labels appears in N distinct groups; in the concrete scenario
of three messages tagged [WORK], [WORK, FINANCE] and [FINANCE], the
WORK group and the FINANCE group both have size 2 and the
doubly-tagged message is counted in both. -/
theorem C8_groups_overlap :
    (∀ (msgs : List AMsg) (m : AMsg) (c : String), m ∈ msgs → c ∈ m.categories →
      m ∈ lookupGroup c (groupByCategory msgs)) ∧
    ((lookupGroup "WORK" (groupByCategory [c8MsgWork, c8MsgBoth, c8MsgFin])).length = 2 ∧
     (lookupGroup "FINANCE" (groupByCategory [c8MsgWork, c8MsgBoth, c8MsgFin])).length = 2 ∧
     c8MsgBoth ∈ lookupGroup "WORK" (groupByCategory [c8MsgWork, c8MsgBoth, c8MsgFin]) ∧
     c8MsgBoth ∈ lookupGroup "FINANCE" (groupByCategory [c8MsgWork, c8MsgBoth, c8MsgFin])) := by
  constructor
  · intro msgs m c hm hc
    rw [lookupGroup_groupByCategory]
    refine List.mem_flatMap.mpr ⟨m, hm, ?_⟩
    refine List.mem_map.mpr ⟨c, ?_, rfl⟩
    simp [List.mem_filter, hc]
  · refine ⟨rfl, rfl, ?_, ?_⟩ <;> decide

/-- Witness for C8 at a concrete batch: the singly-WORK-tagged message
is in the WORK group of the three-message scenario. -/
theorem C8_groups_overlap_witness :
    c8MsgWork ∈ lookupGroup "WORK" (groupByCategory [c8MsgWork, c8MsgBoth, c8MsgFin]) :=
  C8_groups_overlap.1 [c8MsgWork, c8MsgBoth, c8MsgFin] c8MsgWork "WORK"
    (by decide) (by decide)

/-- C10: grouping iterates label occurrences, not distinct labels: the
group of any label string c — including strings outside the fixed
22-label set — consists of one copy of each message per occurrence of
c in its categories list, in batch order; a non-empty group is keyed in
the table by exactly that string; and a message carrying a label twice
appears twice in that single group. -/
theorem C10_occurrence_grouping :
    (∀ (msgs : List AMsg) (c : String),
      lookupGroup c (groupByCategory msgs) =
        msgs.flatMap (fun m => (m.categories.filter (fun x => x = c)).map (fun _ => m))) ∧
    (∀ (msgs : List AMsg) (c : String), lookupGroup c (groupByCategory msgs) ≠ [] →
      (c, lookupGroup c (groupByCategory msgs)) ∈ groupByCategory msgs) ∧
    lookupGroup "XDUP" (groupByCategory [c10DupMsg]) = [c10DupMsg, c10DupMsg] := by
  exact ⟨lookupGroup_groupByCategory, fun msgs c h => lookupGroup_mem c _ h, rfl⟩

/-- Witness for C10 at a concrete batch: the duplicated out-of-set
label XDUP is a key of the group table with its two-copy group. -/
theorem C10_occurrence_grouping_witness :
    ("XDUP", lookupGroup "XDUP" (groupByCategory [c10DupMsg])) ∈ groupByCategory [c10DupMsg] :=
  C10_occurrence_grouping.2.1 [c10DupMsg] "XDUP" (by decide)

end EmailReader
